import Mathlib

/-!
Verification development for the GSAP Flip plugin surface
(`src/types/flip.d.ts`).  The repository ships only the declaration file;
the behavioural parts referenced by the declarations are therefore
modelled from the specification (spec.md sections 3–8), with geometry over
the rationals so that every definition is executable and every identity is
exact (exact equality implies "within floating tolerance").
-/

/-- Modelled from the spec: `Matrix2D` (§3, §4.1), an affine 2×3 transform
with six scalars; point `(x, y)` maps to `(a*x + c*y + e, b*x + d*y + f)`.
The implementation (`gsap.plugins.Matrix2D`) is absent from `src/`, which
only declares the type name. -/
structure Matrix2D where
  a : ℚ
  b : ℚ
  c : ℚ
  d : ℚ
  e : ℚ
  f : ℚ
deriving DecidableEq, Repr

/-- The identity affine transform. -/
def Matrix2D.identityM : Matrix2D := ⟨1, 0, 0, 1, 0, 0⟩

/-- Modelled from the spec: `compose(parent, child)` (§4.1) — standard
affine multiplication; the composite applies `n` first, then `m`. -/
def Matrix2D.compose (m n : Matrix2D) : Matrix2D :=
  ⟨m.a * n.a + m.c * n.b,
   m.b * n.a + m.d * n.b,
   m.a * n.c + m.c * n.d,
   m.b * n.c + m.d * n.d,
   m.a * n.e + m.c * n.f + m.e,
   m.b * n.e + m.d * n.f + m.f⟩

/-- Determinant of the linear part of an affine transform. -/
def Matrix2D.det (m : Matrix2D) : ℚ := m.a * m.d - m.b * m.c

/-- Modelled from the spec: `invert(m)` (§4.1) — fails (returns a `none`
sentinel, never silently wrong data) when the determinant is degenerate. -/
def Matrix2D.invert (m : Matrix2D) : Option Matrix2D :=
  if m.det = 0 then none
  else
    some ⟨m.d / m.det, -m.b / m.det, -m.c / m.det, m.a / m.det,
          (m.c * m.f - m.d * m.e) / m.det,
          (m.b * m.e - m.a * m.f) / m.det⟩

/-- Modelled from the spec: a live visual element (§2 "DOM-style tree
traversal, bounding-box measurement and computed-style retrieval (assumed
available as primitive queries)").  Carries the rendered box, the
decomposed transform scalars the capture reads (§4.2 treats the
decomposition output as the interpolation basis), the layout-affecting
computed styles, the positioning-ancestor box origin used by
`makeAbsolute` (§4.6), a selector key for target resolution (§4.3), and
the inline-style record written by `recordInlineStyles` (§3). -/
structure LiveElement where
  ref : ℕ
  sel : String
  x : ℚ
  y : ℚ
  width : ℚ
  height : ℚ
  rotation : ℚ
  skewX : ℚ
  scaleX : ℚ
  scaleY : ℚ
  opacity : ℚ
  left : ℚ
  top : ℚ
  ancestorX : ℚ
  ancestorY : ℚ
  position : String
  display : String
  isVisible : Bool
  flipping : Bool
  inlineRecord : Option (String × ℚ × ℚ)
deriving DecidableEq, Repr

/-- `ElementState` from `src/types/flip.d.ts` lines 32–53: per-element
geometry+style snapshot plus identity.  The function-valued field
`getProp`, the `matrix`/`cache`/`bounds` object fields and the `parent`
back-reference are omitted: no claim depends on them and the spec (§3)
designates the decomposed scalars as the comparable content. -/
structure ElementState where
  element : ℕ
  id : ℕ
  x : ℚ
  y : ℚ
  scaleX : ℚ
  scaleY : ℚ
  rotation : ℚ
  skewX : ℚ
  opacity : ℚ
  width : ℚ
  height : ℚ
  isVisible : Bool
  display : String
  position : String
  simple : Bool
deriving DecidableEq, Repr

/-- Modelled from the spec: `getElementState(element)` (§4.2) — reads the
live bounding box and the decomposed transform into an `ElementState`
snapshot; the stable id is the element's pre-existing identifier (§4.3:
"either a pre-existing DOM identifier or a generated mapping key"). -/
def getElementState (e : LiveElement) : ElementState :=
  { element := e.ref
    id := e.ref
    x := e.x
    y := e.y
    scaleX := e.scaleX
    scaleY := e.scaleY
    rotation := e.rotation
    skewX := e.skewX
    opacity := e.opacity
    width := e.width
    height := e.height
    isVisible := e.isVisible
    display := e.display
    position := e.position
    simple := false }

/-- `FlipStateVars` from `src/types/flip.d.ts` lines 27–30. -/
structure FlipStateVars where
  simple : Bool := false
  props : String := ""
deriving DecidableEq, Repr

/-- `FlipStateInstance` from `src/types/flip.d.ts` lines 5–20: ordered
targets, their `ElementState`s, the id → state lookup, the `alt`
secondary id mapping, the extra-props list and the `simple` flag.
`idLookup`/`alt` (declared `object`) are modelled as association lists. -/
structure FlipStateInstance where
  targets : List ℕ
  elementStates : List ElementState
  idLookup : List (ℕ × ElementState)
  alt : List (ℕ × ElementState)
  props : String
  simple : Bool
deriving DecidableEq, Repr

/-- Builds the id → ElementState association list from a state list. -/
def mkIdLookup (states : List ElementState) : List (ℕ × ElementState) :=
  states.map (fun s => (s.id, s))

/-- Modelled from the spec: FlipState capture (§4.3) — one `ElementState`
per resolved element, `idLookup` built from the states, `targets` kept in
the same order. -/
def mkFlipState (elems : List LiveElement) (vars : FlipStateVars) : FlipStateInstance :=
  let states := elems.map getElementState
  { targets := elems.map (fun e => e.ref)
    elementStates := states
    idLookup := mkIdLookup states
    alt := []
    props := vars.props
    simple := vars.simple }

/-- A single entry of a targets argument: a direct element reference or a
selector string (`src/types/flip.d.ts` line 133: `Element | string`). -/
inductive Target where
  | elem (e : LiveElement)
  | selector (s : String)
deriving DecidableEq, Repr

/-- Modelled from the spec: target resolution (§4.3) — resolves a single
element, a selector string, `null`, or an array-like of either to a
concrete ordered element list; a selector collects the world's elements
whose selector key matches, an unresolvable selector contributes none. -/
def resolveTargets (world : List LiveElement) : Option (List Target) → List LiveElement
  | none => []
  | some ts => ts.flatMap fun t =>
      match t with
      | .elem e => [e]
      | .selector s => world.filter (fun le => le.sel == s)

/-- `Flip.getState(targets, vars)` (`src/types/flip.d.ts` line 133),
modelled from the spec (§4.3): resolve the targets against the live world
and capture a `FlipStateInstance`. -/
def Flip.getState (world : List LiveElement) (targets : Option (List Target))
    (vars : FlipStateVars) : FlipStateInstance :=
  mkFlipState (resolveTargets world targets) vars

/-- Modelled from the spec: `update()` (§4.3) — re-captures every element
currently referenced, in place, preserving identity and ordering; an
element no longer present in the world keeps its previous snapshot. -/
def FlipStateInstance.update (fs : FlipStateInstance) (world : List LiveElement) :
    FlipStateInstance :=
  let states := fs.elementStates.map fun s =>
    match world.find? (fun e => e.ref == s.element) with
    | some e => { getElementState e with id := s.id }
    | none => s
  { fs with elementStates := states, idLookup := mkIdLookup states }

/-- Modelled from the spec: normalization of an angular delta to the
shorter path (§4.4 "normalized to the shorter angular path (±180°)"):
subtract the whole number of turns, landing in `[-180, 180)`. -/
def normAngle (d : ℚ) : ℚ := d - 360 * ⌊(d + 180) / 360⌋

/-- `FitReturnVars` from `src/types/flip.d.ts` lines 105–116: always `x`,
`y`, `rotation`, `skewX`; `width`/`height` or `scaleX`/`scaleY` depending
on the `scale` option. -/
structure FitReturnVars where
  x : ℚ
  y : ℚ
  rotation : ℚ
  skewX : ℚ
  width : Option ℚ := none
  height : Option ℚ := none
  scaleX : Option ℚ := none
  scaleY : Option ℚ := none
deriving DecidableEq, Repr

/-- Modelled from the spec: the Fit Engine's per-pair delta (§4.4) —
translation is target minus current in the shared space, rotation/skew
deltas are normalized to the shorter angular path, and either a
dimensional scale (`target/current` ratios) or direct width/height. -/
def fitDelta (cur target : ElementState) (scale : Bool) : FitReturnVars :=
  { x := target.x - cur.x
    y := target.y - cur.y
    rotation := normAngle (target.rotation - cur.rotation)
    skewX := normAngle (target.skewX - cur.skewX)
    width := if scale then none else some target.width
    height := if scale then none else some target.height
    scaleX := if scale then some (target.width / cur.width) else none
    scaleY := if scale then some (target.height / cur.height) else none }

/-- Applies a computed fit delta to one live element (the end values the
tween drives toward, applied synchronously). -/
def applyDelta (e : LiveElement) (d : FitReturnVars) : LiveElement :=
  { e with
    x := e.x + d.x
    y := e.y + d.y
    rotation := e.rotation + d.rotation
    skewX := e.skewX + d.skewX
    scaleX := match d.scaleX with | some s => e.scaleX * s | none => e.scaleX
    scaleY := match d.scaleY with | some s => e.scaleY * s | none => e.scaleY
    width := match d.width with | some w => w | none => e.width
    height := match d.height with | some h => h | none => e.height }

/-- Applies a fit delta to the element with the given reference. -/
def applyFit (world : List LiveElement) (ref : ℕ) (d : FitReturnVars) :
    List LiveElement :=
  world.map fun e => if e.ref == ref then applyDelta e d else e

/-- The recognized `FitVars` options the fit computation branches on
(`src/types/flip.d.ts` lines 82–103); pass-through animation parameters
are forwarded opaquely to the external engine (§6) and not modelled. -/
structure FitVars where
  scale : Bool := false
  getVars : Bool := false
  absolute : Bool := false
deriving DecidableEq, Repr

/-- Looks an id up in a captured state's `idLookup`. -/
def lookupId (fs : FlipStateInstance) (i : ℕ) : Option ElementState :=
  (fs.idLookup.find? (fun p => p.1 == i)).map (fun p => p.2)

/-- The `toElement` argument of `Flip.fit` (`src/types/flip.d.ts`
line 214): a live element (measure it) or an already-captured state (use
its stored box for the from-element's id, no extra read; §4.4). -/
inductive FitTarget where
  | elem (e : LiveElement)
  | state (st : FlipStateInstance)
deriving Repr

/-- Resolves the fit target to the `ElementState` box to fit onto. -/
def resolveFitTarget (fromId : ℕ) : FitTarget → Option ElementState
  | .elem e => some (getElementState e)
  | .state st => lookupId st fromId

/-- Outcome of `Flip.fit`: the (possibly mutated) world, the computed
deltas when `getVars: true`, and whether a tween was started. -/
structure FitOutcome where
  world : List LiveElement
  vars : Option FitReturnVars
  tween : Bool
deriving Repr

/-- `Flip.fit(fromElement, toElement, vars)` (`src/types/flip.d.ts`
line 214), modelled from the spec (§4.4): compute the per-pair delta;
`getVars: true` short-circuits animation and returns the deltas as a
plain value object — same computation, different output sink — otherwise
a tween is started driving the element to the computed values. -/
def Flip.fit (world : List LiveElement) (fromRef : ℕ) (target : FitTarget)
    (v : FitVars) : FitOutcome :=
  match world.find? (fun e => e.ref == fromRef) with
  | none => ⟨world, none, false⟩
  | some fe =>
    match resolveFitTarget (getElementState fe).id target with
    | none => ⟨world, none, false⟩
    | some toS =>
      let d := fitDelta (getElementState fe) toS v.scale
      if v.getVars then ⟨world, some d, false⟩
      else ⟨applyFit world fromRef d, none, true⟩

/-- An element is measurable when visible and not `display:none`
(§3: "display:none elements cannot be measured"). -/
def isMeasurable (e : LiveElement) : Bool :=
  e.isVisible && !(e.display == "none")

/-- `makeAbsolute` converts an element iff it is not already absolute and
is measurable (§4.6: already-absolute elements are a per-element no-op;
unmeasurable/invisible elements are excluded). -/
def needsAbsolute (e : LiveElement) : Bool :=
  !(e.position == "absolute") && isMeasurable e

/-- Modelled from the spec: the per-element conversion of `makeAbsolute`
(§4.6) — switch `position` to absolute and set explicit offsets computed
from the pre-switch measurement relative to the positioning ancestor. -/
def toAbsolute (e : LiveElement) : LiveElement :=
  { e with
    position := "absolute"
    left := e.x - e.ancestorX
    top := e.y - e.ancestorY }

/-- `Flip.makeAbsolute(targets)` (`src/types/flip.d.ts` line 227),
modelled from the spec (§4.6): walk the resolved targets, convert each
element that needs it, and collect exactly the mutated elements. -/
def Flip.makeAbsolute : List LiveElement → List LiveElement × List ℕ
  | [] => ([], [])
  | e :: rest =>
    let r := Flip.makeAbsolute rest
    if needsAbsolute e then (toAbsolute e :: r.1, e.ref :: r.2)
    else (e :: r.1, r.2)

/-- The ids captured in a `FlipState`, in order. -/
def stateIds (fs : FlipStateInstance) : List ℕ :=
  fs.elementStates.map (fun s => s.id)

/-- Modelled from the spec: the orchestrator's diff partition (§4.5 step 1)
— ids present in both captures. -/
def persistingIds (s1 s2 : List ℕ) : List ℕ :=
  s2.filter (fun i => decide (i ∈ s1))

/-- Modelled from the spec: ids present now, absent before (§4.5 step 1). -/
def enteringIds (s1 s2 : List ℕ) : List ℕ :=
  s2.filter (fun i => decide (i ∉ s1))

/-- Modelled from the spec: ids present before, absent now (§4.5 step 1). -/
def leavingIds (s1 s2 : List ℕ) : List ℕ :=
  s1.filter (fun i => decide (i ∉ s2))

/-- Modelled from the spec: `state.fit(other, scale, nested)` (§3
lifecycle, §4.4) — for each persisting id, drive the live element onto
the target state's box; produces no new FlipState, mutates live elements
and returns the target state for chaining. -/
def FlipStateInstance.fit (fs : FlipStateInstance) (target : FlipStateInstance)
    (scale : Bool) (world : List LiveElement) :
    List LiveElement × FlipStateInstance :=
  let w := (persistingIds (stateIds fs) (stateIds target)).foldl
    (fun w i =>
      match lookupId target i, w.find? (fun e => e.ref == i) with
      | some toS, some fe => applyFit w i (fitDelta (getElementState fe) toS scale)
      | _, _ => w)
    world
  (w, target)

/-- Modelled from the spec: `state.makeAbsolute()` (§3 lifecycle, §4.6) —
converts the state's targets in the live world as a side effect without
altering the FlipState's own snapshot. -/
def FlipStateInstance.applyMakeAbsolute (fs : FlipStateInstance)
    (world : List LiveElement) : List LiveElement × FlipStateInstance :=
  (world.map (fun e =>
    if fs.targets.contains e.ref && needsAbsolute e then toAbsolute e else e), fs)

/-- Modelled from the spec: `state.recordInlineStyles()` (§3 lifecycle) —
records the targets' current inline styles on the live elements for later
restoration, without altering the FlipState's own snapshot. -/
def FlipStateInstance.recordInlineStyles (fs : FlipStateInstance)
    (world : List LiveElement) : List LiveElement × FlipStateInstance :=
  (world.map (fun e =>
    if fs.targets.contains e.ref then
      { e with inlineRecord := some (e.position, e.left, e.top) }
    else e), fs)

/-- Modelled from the spec: `state.completeFlips()` (§3 lifecycle, §5) —
forces any in-flight flip referencing this state to its end value
synchronously; a no-op on elements with no flip outstanding. -/
def FlipStateInstance.completeFlips (fs : FlipStateInstance)
    (world : List LiveElement) : List LiveElement × FlipStateInstance :=
  (world.map (fun e =>
    if fs.targets.contains e.ref then { e with flipping := false } else e), fs)

/-- The FlipState consistency invariant (§3): `targets.length ===
elementStates.length`, and every id in `idLookup` resolves to an
`ElementState` present in `elementStates`. -/
def stateInvariant (fs : FlipStateInstance) : Prop :=
  fs.targets.length = fs.elementStates.length ∧
  ∀ p ∈ fs.idLookup, p.2 ∈ fs.elementStates

instance (fs : FlipStateInstance) : Decidable (stateInvariant fs) := by
  unfold stateInvariant
  infer_instance

/-- The `targetsOrStates` constructor argument of `FlipState`
(`src/types/flip.d.ts` line 23): `Element[] | ElementState[]`. -/
inductive TargetsOrStates where
  | elems (es : List LiveElement)
  | states (ss : List ElementState)
deriving Repr

/-- The `FlipState` constructor (`src/types/flip.d.ts` lines 22–25),
modelled from the spec: with `targetsAreElementStates = true` the provided
`ElementState` values are adopted directly (targets recovered from their
element references); otherwise the elements are captured as in `getState`
(§4.3).  A `states` payload with the flag unset is adopted as states as
well, the only total reading of the declared overload. -/
def FlipState.new (tos : TargetsOrStates) (vars : FlipStateVars)
    (targetsAreElementStates : Bool) : FlipStateInstance :=
  match tos, targetsAreElementStates with
  | .states ss, _ =>
    { targets := ss.map (fun s => s.element)
      elementStates := ss
      idLookup := mkIdLookup ss
      alt := []
      props := vars.props
      simple := vars.simple }
  | .elems es, _ => mkFlipState es vars

/-- Modelled from the spec: an element as the coordinate converter sees it
(§4.1) — the identity of its tree's root reference frame and the chain of
local transform matrices from the element up to that root.  Two elements
share an ancestor exactly when they live under the same root. -/
structure ElemNode where
  root : ℕ
  chain : List Matrix2D
deriving Repr

/-- Accumulates an ancestor chain (element-to-root order) into the single
matrix mapping element-local points into root space, preserving
composition order (child-to-parent walk, §3). -/
def accMatrix (chain : List Matrix2D) : Matrix2D :=
  chain.foldl (fun acc m => m.compose acc) Matrix2D.identityM

/-- `Flip.convertCoordinates(fromElement, toElement)`
(`src/types/flip.d.ts` line 242), modelled from the spec (§4.1): walk both
ancestor chains to the common reference frame, compose the from-element's
accumulated matrix with the inverse of the to-element's; elements with no
common ancestor, or a degenerate to-chain, are a failed conversion
(`none`), never a silently wrong matrix. -/
def Flip.convertCoordinates (x y : ElemNode) : Option Matrix2D :=
  if x.root = y.root then
    match (accMatrix y.chain).invert with
    | some inv => some (inv.compose (accMatrix x.chain))
    | none => none
  else none

/-- A concrete untransformed live element used to instantiate the
testable properties (spec §8): a 100×50 box at the origin. -/
def baseElem : LiveElement :=
  { ref := 0, sel := "", x := 0, y := 0, width := 100, height := 50,
    rotation := 0, skewX := 0, scaleX := 1, scaleY := 1, opacity := 1,
    left := 0, top := 0, ancestorX := 0, ancestorY := 0,
    position := "static", display := "block", isVisible := true,
    flipping := false, inlineRecord := none }

/-- The element `A` of the spec §8 fit scenario: a 100×50 box. -/
def elemA : LiveElement := { baseElem with ref := 1, sel := "a" }

/-- The element `B` of the spec §8 fit scenario: a 200×100 box. -/
def elemB : LiveElement :=
  { baseElem with
    ref := 2, sel := "b", x := 30, y := 40,
    width := 200, height := 100 }

/-- A concrete element node for the coordinate-converter instances: one
local transform (scale 2 in x, translate (3,4)) under root frame 0. -/
def nodeX : ElemNode := ⟨0, [⟨2, 0, 0, 1, 3, 4⟩]⟩

/-- A concrete element node sitting directly at root frame 0. -/
def nodeY : ElemNode := ⟨0, []⟩

/-- The matrix `convertCoordinates nodeX nodeY` produces. -/
def matMX : Matrix2D := ⟨2, 0, 0, 1, 3, 4⟩

/-- The matrix `convertCoordinates nodeY nodeX` produces. -/
def matNX : Matrix2D := ⟨1/2, 0, 0, 1, -3/2, -4⟩

/-! ## General lemmas about the embedded operations -/

theorem Matrix2D.compose_assoc (m n p : Matrix2D) :
    (m.compose n).compose p = m.compose (n.compose p) := by
  simp only [Matrix2D.compose, Matrix2D.mk.injEq]
  exact ⟨by ring, by ring, by ring, by ring, by ring, by ring⟩

theorem Matrix2D.compose_identity (m : Matrix2D) :
    m.compose Matrix2D.identityM = m := by
  cases m
  simp only [Matrix2D.compose, Matrix2D.identityM, Matrix2D.mk.injEq]
  exact ⟨by ring, by ring, by ring, by ring, by ring, by ring⟩

theorem Matrix2D.identity_compose (m : Matrix2D) :
    Matrix2D.identityM.compose m = m := by
  cases m
  simp only [Matrix2D.compose, Matrix2D.identityM, Matrix2D.mk.injEq]
  exact ⟨by ring, by ring, by ring, by ring, by ring, by ring⟩

theorem Matrix2D.invert_sound (m mi : Matrix2D) (h : m.invert = some mi) :
    mi.compose m = Matrix2D.identityM ∧ m.compose mi = Matrix2D.identityM := by
  unfold Matrix2D.invert at h
  split at h
  · exact absurd h (by simp)
  · rename_i hd
    simp only [Option.some.injEq] at h
    subst h
    constructor
    · simp only [Matrix2D.compose, Matrix2D.identityM, Matrix2D.mk.injEq, Matrix2D.det] at hd ⊢
      refine ⟨?_, ?_, ?_, ?_, ?_, ?_⟩ <;> (field_simp; try ring)
    · simp only [Matrix2D.compose, Matrix2D.identityM, Matrix2D.mk.injEq, Matrix2D.det] at hd ⊢
      refine ⟨?_, ?_, ?_, ?_, ?_, ?_⟩ <;> (field_simp; try ring)

theorem normAngle_lower (d : ℚ) : -180 ≤ normAngle d := by
  unfold normAngle
  have h360 : (0 : ℚ) < 360 := by norm_num
  have h1 := Int.floor_le ((d + 180) / 360)
  rw [le_div_iff₀ h360] at h1
  linarith

theorem normAngle_upper (d : ℚ) : normAngle d < 180 := by
  unfold normAngle
  have h360 : (0 : ℚ) < 360 := by norm_num
  have h2 := Int.lt_floor_add_one ((d + 180) / 360)
  rw [div_lt_iff₀ h360] at h2
  linarith

theorem normAngle_zero : normAngle 0 = 0 := by norm_num [normAngle]

theorem mkIdLookup_sound (states : List ElementState) :
    ∀ p ∈ mkIdLookup states, p.2 ∈ states := by
  intro p hp
  unfold mkIdLookup at hp
  obtain ⟨s, hs, rfl⟩ := List.mem_map.mp hp
  exact hs

theorem mkFlipState_invariant (elems : List LiveElement) (vars : FlipStateVars) :
    stateInvariant (mkFlipState elems vars) := by
  unfold stateInvariant mkFlipState
  refine ⟨by simp, ?_⟩
  exact mkIdLookup_sound _

theorem needsAbsolute_toAbsolute (e : LiveElement) :
    needsAbsolute (toAbsolute e) = false := by
  simp [needsAbsolute, toAbsolute]

theorem makeAbsolute_snd_characterization (es : List LiveElement) :
    (Flip.makeAbsolute es).2 = (es.filter needsAbsolute).map (fun e => e.ref) := by
  induction es with
  | nil => rfl
  | cons e rest ih =>
    by_cases hc : needsAbsolute e <;>
      simp [Flip.makeAbsolute, hc, ih]

theorem makeAbsolute_fst_settled (es : List LiveElement) :
    ∀ e ∈ (Flip.makeAbsolute es).1, needsAbsolute e = false := by
  induction es with
  | nil => intro e he; simp [Flip.makeAbsolute] at he
  | cons a rest ih =>
    intro e he
    by_cases hc : needsAbsolute a <;> simp [Flip.makeAbsolute, hc] at he
    · rcases he with rfl | he
      · exact needsAbsolute_toAbsolute a
      · exact ih e he
    · rcases he with rfl | he
      · exact Bool.not_eq_true _ |>.mp hc
      · exact ih e he

theorem makeAbsolute_of_settled (es : List LiveElement)
    (h : ∀ e ∈ es, needsAbsolute e = false) : (Flip.makeAbsolute es).2 = [] := by
  induction es with
  | nil => rfl
  | cons a rest ih =>
    have ha := h a (by simp)
    simp [Flip.makeAbsolute, ha]
    exact ih (fun e he => h e (by simp [he]))

/-! ## Claim theorems -/

/-- C9: for every pair of elements with no common ancestor (distinct root
reference frames), `convertCoordinates` reports a failed conversion
through an explicit `none` result and never returns a silently wrong
matrix. -/
theorem convertCoordinates_no_common_ancestor (x y : ElemNode)
    (h : x.root ≠ y.root) : Flip.convertCoordinates x y = none := by
  unfold Flip.convertCoordinates
  rw [if_neg h]

/-- Witness for C9 at concrete elements in two unrelated trees. -/
theorem convertCoordinates_no_common_ancestor_witness :
    (⟨0, []⟩ : ElemNode).root ≠ (⟨1, []⟩ : ElemNode).root ∧
    Flip.convertCoordinates ⟨0, []⟩ ⟨1, []⟩ = none :=
  ⟨by decide, convertCoordinates_no_common_ancestor ⟨0, []⟩ ⟨1, []⟩ (by decide)⟩

/-- C3: for any two elements sharing an ancestor (same root frame), the
matrix returned by `convertCoordinates(X, Y)` composed with the matrix
returned by `convertCoordinates(Y, X)` is exactly the identity matrix
(hence within any tolerance). -/
theorem convertCoordinates_inverse_consistency (x y : ElemNode) (M N : Matrix2D)
    (hxy : Flip.convertCoordinates x y = some M)
    (hyx : Flip.convertCoordinates y x = some N) :
    M.compose N = Matrix2D.identityM ∧ N.compose M = Matrix2D.identityM := by
  unfold Flip.convertCoordinates at hxy hyx
  by_cases hr : x.root = y.root
  · rw [if_pos hr] at hxy
    rw [if_pos hr.symm] at hyx
    rcases hY : (accMatrix y.chain).invert with _ | iY <;> rw [hY] at hxy
    · exact absurd hxy (by simp)
    rcases hX : (accMatrix x.chain).invert with _ | iX <;> rw [hX] at hyx
    · exact absurd hyx (by simp)
    simp only [Option.some.injEq] at hxy hyx
    subst hxy hyx
    obtain ⟨hY1, _⟩ := Matrix2D.invert_sound _ _ hY
    obtain ⟨hX1, hX2⟩ := Matrix2D.invert_sound _ _ hX
    constructor
    · calc (iY.compose (accMatrix x.chain)).compose (iX.compose (accMatrix y.chain))
          = iY.compose (((accMatrix x.chain).compose iX).compose (accMatrix y.chain)) := by
            rw [Matrix2D.compose_assoc, Matrix2D.compose_assoc]
      _ = iY.compose (accMatrix y.chain) := by
            rw [hX2, Matrix2D.identity_compose]
      _ = Matrix2D.identityM := hY1
    · calc (iX.compose (accMatrix y.chain)).compose (iY.compose (accMatrix x.chain))
          = iX.compose (((accMatrix y.chain).compose iY).compose (accMatrix x.chain)) := by
            rw [Matrix2D.compose_assoc, Matrix2D.compose_assoc]
      _ = iX.compose (accMatrix x.chain) := by
            rw [Matrix2D.invert_sound _ _ hY |>.2, Matrix2D.identity_compose]
      _ = Matrix2D.identityM := hX1
  · rw [if_neg hr] at hxy
    exact absurd hxy (by simp)

/-- Witness for C3 at two concrete elements under one root frame. -/
theorem convertCoordinates_inverse_consistency_witness :
    Flip.convertCoordinates nodeX nodeY = some matMX ∧
    Flip.convertCoordinates nodeY nodeX = some matNX ∧
    (matMX.compose matNX = Matrix2D.identityM ∧
      matNX.compose matMX = Matrix2D.identityM) := by
  have h1 : Flip.convertCoordinates nodeX nodeY = some matMX := by
    norm_num [Flip.convertCoordinates, nodeX, nodeY, matMX, accMatrix,
      Matrix2D.invert, Matrix2D.det, Matrix2D.compose, Matrix2D.identityM]
  have h2 : Flip.convertCoordinates nodeY nodeX = some matNX := by
    norm_num [Flip.convertCoordinates, nodeX, nodeY, matNX, accMatrix,
      Matrix2D.invert, Matrix2D.det, Matrix2D.compose, Matrix2D.identityM]
  exact ⟨h1, h2, convertCoordinates_inverse_consistency nodeX nodeY matMX matNX h1 h2⟩

/-- C6: in the Fit Engine, for every element pair the rotation and skew
deltas equal target minus current normalized to the shorter angular path:
the applied delta lies within ±180 degrees and differs from the raw
`target − current` difference by a whole number of full turns, so no fit
introduces an unnecessary full rotation. -/
theorem fitDelta_shorter_angular_path (cur target : ElementState) (scale : Bool) :
    (-180 ≤ (fitDelta cur target scale).rotation ∧
      (fitDelta cur target scale).rotation ≤ 180 ∧
      ∃ k : ℤ, (fitDelta cur target scale).rotation =
        (target.rotation - cur.rotation) - 360 * k) ∧
    (-180 ≤ (fitDelta cur target scale).skewX ∧
      (fitDelta cur target scale).skewX ≤ 180 ∧
      ∃ k : ℤ, (fitDelta cur target scale).skewX =
        (target.skewX - cur.skewX) - 360 * k) := by
  refine ⟨⟨normAngle_lower _, le_of_lt ?_, ⟨⌊((target.rotation - cur.rotation) + 180) / 360⌋, rfl⟩⟩,
    ⟨normAngle_lower _, le_of_lt ?_, ⟨⌊((target.skewX - cur.skewX) + 180) / 360⌋, rfl⟩⟩⟩
  · exact lt_of_lt_of_le (normAngle_upper _) (by norm_num)
  · exact lt_of_lt_of_le (normAngle_upper _) (by norm_num)

/-- C1: fitting an element onto its own freshly captured state —
`fit(A, getState(A))` — yields an identity delta: translation components
0, scale components 1, rotation (and skew) 0, exactly (hence within any
floating tolerance); no tween is started and the world is untouched when
the delta is inspected. -/
theorem fit_onto_own_state_identity (e : LiveElement)
    (hw : e.width ≠ 0) (hh : e.height ≠ 0) :
    Flip.fit [e] e.ref
        (.state (Flip.getState [e] (some [.elem e]) {}))
        { scale := true, getVars := true } =
      { world := [e],
        vars := some
          { x := 0, y := 0, rotation := 0, skewX := 0,
            scaleX := some 1, scaleY := some 1 },
        tween := false } := by
  have hfind : ([e].find? (fun x => x.ref == e.ref)) = some e := by
    simp [List.find?]
  have hstate : Flip.getState [e] (some [.elem e]) {} =
      { targets := [e.ref], elementStates := [getElementState e],
        idLookup := [((getElementState e).id, getElementState e)],
        alt := [], props := "", simple := false } := by
    simp [Flip.getState, mkFlipState, resolveTargets, mkIdLookup]
  have hlook : lookupId (Flip.getState [e] (some [.elem e]) {}) (getElementState e).id
      = some (getElementState e) := by
    rw [hstate]
    simp [lookupId, List.find?]
  simp only [Flip.fit, hfind, resolveFitTarget, hlook]
  simp only [fitDelta, getElementState]
  norm_num [normAngle_zero, div_self hw, div_self hh]

/-- Witness for C1: the 100×50 element `elemA` fit onto its own captured
state yields the identity delta. -/
theorem fit_onto_own_state_identity_witness :
    elemA.width ≠ 0 ∧ elemA.height ≠ 0 ∧
    Flip.fit [elemA] elemA.ref
        (.state (Flip.getState [elemA] (some [.elem elemA]) {}))
        { scale := true, getVars := true } =
      { world := [elemA],
        vars := some
          { x := 0, y := 0, rotation := 0, skewX := 0,
            scaleX := some 1, scaleY := some 1 },
        tween := false } := by
  have hw : elemA.width ≠ 0 := by norm_num [elemA, baseElem]
  have hh : elemA.height ≠ 0 := by norm_num [elemA, baseElem]
  exact ⟨hw, hh, fit_onto_own_state_identity elemA hw hh⟩

/-- C4: `fit(A, B, {scale:true, getVars:true})` for A of size 100×50 and
B of size 200×100 returns a value object with `scaleX = 2` and
`scaleY = 2`, leaves the live world (A's geometry and styles) exactly as
it was, and starts no tween. -/
theorem fit_getVars_scale_no_mutation :
    Flip.fit [elemA, elemB] elemA.ref (.elem elemB)
        { scale := true, getVars := true } =
      { world := [elemA, elemB],
        vars := some
          { x := 30, y := 40, rotation := 0, skewX := 0,
            scaleX := some 2, scaleY := some 2 },
        tween := false } := by
  have hfind : ([elemA, elemB].find? (fun x => x.ref == elemA.ref)) = some elemA := by
    simp [List.find?]
  simp only [Flip.fit, hfind, resolveFitTarget]
  simp only [fitDelta, getElementState, elemA, elemB, baseElem]
  norm_num [normAngle_zero]

/-- C2: for a previously captured FlipState (ids S1) and a fresh capture
of the current live targets (ids S2), the orchestrator's diff partition
satisfies persisting ∪ entering = S2, persisting ∪ leaving = S1, and
entering ∩ leaving = ∅ (stated via membership). -/
theorem diff_partition_complete (prev : FlipStateInstance)
    (world : List LiveElement) (ts : Option (List Target))
    (vars : FlipStateVars) (i : ℕ) :
    ((i ∈ persistingIds (stateIds prev) (stateIds (Flip.getState world ts vars)) ∨
        i ∈ enteringIds (stateIds prev) (stateIds (Flip.getState world ts vars))) ↔
      i ∈ stateIds (Flip.getState world ts vars)) ∧
    ((i ∈ persistingIds (stateIds prev) (stateIds (Flip.getState world ts vars)) ∨
        i ∈ leavingIds (stateIds prev) (stateIds (Flip.getState world ts vars))) ↔
      i ∈ stateIds prev) ∧
    ¬(i ∈ enteringIds (stateIds prev) (stateIds (Flip.getState world ts vars)) ∧
        i ∈ leavingIds (stateIds prev) (stateIds (Flip.getState world ts vars))) := by
  simp only [persistingIds, enteringIds, leavingIds, List.mem_filter,
    decide_eq_true_eq]
  refine ⟨?_, ?_, ?_⟩ <;> tauto

/-- C7: whenever the targets argument resolves to no elements
(unresolvable selector, null, or an empty list), `getState` succeeds with
an empty FlipState — empty targets, states and id lookup — and a
subsequent diff against it finds no persisting ids. -/
theorem getState_empty_targets (world : List LiveElement)
    (ts : Option (List Target)) (vars : FlipStateVars)
    (h : resolveTargets world ts = []) (cur : FlipStateInstance) :
    (Flip.getState world ts vars).targets = [] ∧
    (Flip.getState world ts vars).elementStates = [] ∧
    (Flip.getState world ts vars).idLookup = [] ∧
    persistingIds (stateIds (Flip.getState world ts vars)) (stateIds cur) = [] := by
  unfold Flip.getState mkFlipState
  rw [h]
  simp [mkIdLookup, stateIds, persistingIds, List.filter_eq_nil_iff]

/-- Witness for C7: the null targets argument resolves to nothing and
capture yields the empty FlipState; the diff against a one-element
capture finds no persisting ids. -/
theorem getState_empty_targets_witness :
    resolveTargets [] none = [] ∧
    ((Flip.getState [] none {}).targets = [] ∧
      (Flip.getState [] none {}).elementStates = [] ∧
      (Flip.getState [] none {}).idLookup = [] ∧
      persistingIds (stateIds (Flip.getState [] none {}))
        (stateIds (mkFlipState [elemA] {})) = []) :=
  ⟨rfl, getState_empty_targets [] none {} rfl (mkFlipState [elemA] {})⟩

/-- C8: `makeAbsolute` returns exactly the elements it mutated to
`position:absolute` — already-absolute elements are a per-element no-op
and are excluded, as are unmeasurable/invisible elements — and a second
call on the already-converted output mutates (and returns) nothing. -/
theorem makeAbsolute_exact_mutation_set (es : List LiveElement) :
    (Flip.makeAbsolute es).2 = (es.filter needsAbsolute).map (fun e => e.ref) ∧
    (Flip.makeAbsolute (Flip.makeAbsolute es).1).2 = [] :=
  ⟨makeAbsolute_snd_characterization es,
    makeAbsolute_of_settled _ (makeAbsolute_fst_settled es)⟩

/-- C5: every FlipState satisfies the consistency invariant
(`targets.length = elementStates.length`, every id key of `idLookup`
resolves to a member of `elementStates`) after construction via
`getState` and after each of `update`, `fit`, `makeAbsolute`,
`recordInlineStyles` and `completeFlips`. -/
theorem flipState_invariant_ops (world w2 : List LiveElement)
    (ts : Option (List Target)) (vars : FlipStateVars)
    (fs other : FlipStateInstance)
    (hfs : stateInvariant fs) (hother : stateInvariant other) :
    stateInvariant (Flip.getState world ts vars) ∧
    stateInvariant (fs.update w2) ∧
    stateInvariant (fs.fit other true w2).2 ∧
    stateInvariant (fs.applyMakeAbsolute w2).2 ∧
    stateInvariant (fs.recordInlineStyles w2).2 ∧
    stateInvariant (fs.completeFlips w2).2 := by
  refine ⟨mkFlipState_invariant _ _, ?_, hother, hfs, hfs, hfs⟩
  unfold FlipStateInstance.update stateInvariant
  constructor
  · simpa using hfs.1
  · exact mkIdLookup_sound _

/-- Witness for C5 at concrete inputs: the empty capture satisfies the
invariant, and so does the result of every operation applied to it. -/
theorem flipState_invariant_ops_witness :
    stateInvariant (Flip.getState [] none {}) ∧
    (stateInvariant (Flip.getState [] none {}) ∧
      stateInvariant ((Flip.getState [] none {}).update []) ∧
      stateInvariant ((Flip.getState [] none {}).fit (Flip.getState [] none {}) true []).2 ∧
      stateInvariant ((Flip.getState [] none {}).applyMakeAbsolute []).2 ∧
      stateInvariant ((Flip.getState [] none {}).recordInlineStyles []).2 ∧
      stateInvariant ((Flip.getState [] none {}).completeFlips []).2) := by
  have h : stateInvariant (Flip.getState [] none {}) := by
    simp [stateInvariant, Flip.getState, mkFlipState, resolveTargets, mkIdLookup]
  exact ⟨h, flipState_invariant_ops [] [] none {}
    (Flip.getState [] none {}) (Flip.getState [] none {}) h h⟩

/-- C10: a FlipState constructed directly from pre-captured ElementState
values (`targetsAreElementStates = true`) adopts exactly those states and
satisfies the same targets/elementStates/idLookup consistency invariant
as a captured one. -/
theorem flipState_new_from_states (ss : List ElementState) (vars : FlipStateVars) :
    (FlipState.new (.states ss) vars true).elementStates = ss ∧
    stateInvariant (FlipState.new (.states ss) vars true) := by
  refine ⟨rfl, ?_, ?_⟩
  · simp [FlipState.new]
  · exact fun p hp => mkIdLookup_sound ss p hp
